import Mathlib

/-!
Verification of the event-dispatch registry in `db/delegate.go`
(package `db` of the Decentralized-Marketplace repository).

The Go file defines:
  * `Data` — an event record (`Domain`, `Action`, `RawParams`);
  * `Func` — a handler `func(context.Context, Data) error`;
  * `Delegate` — a two-level map `domain → action → []Func` plus a logger;
  * `New`, `Register`, `Call`, and `Data.String`.

Embedding conventions:
  * Go `string` ↦ Lean `String`; Go `[]byte` ↦ `List Nat` (byte values).
  * `context.Context` ↦ an opaque token type `Ctx`; the registry only
    passes it through, which the embedding makes visible.
  * Go `error` ↦ `Option String` (`none` = `nil`, `some e` = an error
    whose message is `e`).
  * The `*logging.Logger` collaborator is modelled by a trace of
    `LogEntry` values emitted by `Call`, in emission order (the `defer`red
    completion entry runs last, so it is appended last).
  * The Go map is modelled as a function to `Option`, matching the Go
    lookup-with-`ok` and zero-value-on-miss semantics; iteration order is
    never used by the source.
  * `Call` returns a `CallResult` holding the post-state delegate, the log
    trace, the trace of handler invocations (in call order), and the
    returned error, so that effects are explicit.
-/

/-- Opaque cancellation/context token (`context.Context`). The registry never
inspects it; it is only handed to handlers. -/
abbrev Ctx := Nat

/-- Event record (`Data` in delegate.go): it represents an event between
domains. -/
structure Data where
  Domain : String
  Action : String
  RawParams : List Nat
deriving DecidableEq, Repr

/-- Handler type (`Func` in delegate.go): it represents a function that is registered and called by the system
(`type Func func(context.Context, Data) error`). The `run` field is the
behaviour of the function: `none` models a `nil` error return. -/
structure Func where
  run : Ctx → Data → Option String

/-- Registry (`Delegate` in delegate.go): it manages the set of functions to be called by domain packages
(`Delegate.funcs : map[domain]map[action][]Func`). The logger field is
modelled by the log trace returned from `Call` instead of being stored. -/
structure Delegate where
  funcs : String → Option (String → Option (List Func))

/-- Constructor (`New` in delegate.go): constructs a delegate with the two-level map empty
(`make(map[domain]map[action][]Func)`). -/
def New : Delegate := ⟨fun _ => none⟩

/-- Registration (`Register` in delegate.go): adds a function to be called for a specified domain and action,
as in delegate.go: read the action map (fresh empty map if the domain key is
absent), read the handler slice (nil slice if the action key is absent),
append `fn`, and store back under both keys. -/
def Delegate.Register (d : Delegate) (domainType actionType : String)
    (fn : Func) : Delegate :=
  let aMap : String → Option (List Func) :=
    match d.funcs domainType with
    | some m => m
    | none => fun _ => none
  let funcs : List Func := (aMap actionType).getD []
  let aMap2 : String → Option (List Func) :=
    fun a => if a = actionType then some (funcs ++ [fn]) else aMap a
  ⟨fun dm => if dm = domainType then some aMap2 else d.funcs dm⟩

/-- Severity levels of the logging collaborator (`log.Info` / `log.Error`). -/
inductive LogLevel where
  | info
  | error
deriving DecidableEq, Repr

/-- A value in a structured key/value log pair: a string, a byte slice, or a
handler error. -/
inductive LogVal where
  | str (s : String)
  | bytes (b : List Nat)
  | err (e : String)
deriving DecidableEq, Repr

/-- One structured log emission: level, context token, message, and the
ordered key/value pairs. -/
structure LogEntry where
  level : LogLevel
  ctx : Ctx
  msg : String
  kv : List (String × LogVal)
deriving DecidableEq, Repr

/-- One handler invocation performed by `Call`: the handler called and the
arguments it was given. -/
structure Invocation where
  fn : Func
  ctx : Ctx
  data : Data

/-- The effects of one `Call`: the delegate afterwards, the log trace, the
handler invocations in call order, and the returned error. -/
structure CallResult where
  delegate : Delegate
  logs : List LogEntry
  invoked : List Invocation
  ret : Option String

/-- The handler loop body of `Call`: for each registered function in order,
log "sending", invoke it with `(ctx, data)`, and on a non-nil error log it at
error severity and continue. Returns the log trace of the loop and invocations. -/
def runFuncs (ctx : Ctx) (data : Data) : List Func → List LogEntry × List Invocation
  | [] => ([], [])
  | fn :: rest =>
    let sending : LogEntry :=
      ⟨.info, ctx, "delegate call", [("status", .str "sending")]⟩
    let here : List LogEntry :=
      match fn.run ctx data with
      | some e => [sending, ⟨.error, ctx, "delegate call", [("msg", .err e)]⟩]
      | none => [sending]
    let tail := runFuncs ctx data rest
    (here ++ tail.1, ⟨fn, ctx, data⟩ :: tail.2)

/-- Dispatch (`Call` in delegate.go) executes all functions registered for the domain and
action, as in delegate.go: log "started" (with domain, action, params), run
the handler loop if both map lookups hit, log the `defer`red "completed"
entry, and return `nil`. The receiver is never written, so the post-state
delegate is `d` itself. -/
def Delegate.Call (d : Delegate) (ctx : Ctx) (data : Data) : CallResult :=
  let started : LogEntry :=
    ⟨.info, ctx, "delegate call",
      [("status", .str "started"), ("domain", .str data.Domain),
       ("action", .str data.Action), ("params", .bytes data.RawParams)]⟩
  let completed : LogEntry :=
    ⟨.info, ctx, "delegate call", [("status", .str "completed")]⟩
  let body : List LogEntry × List Invocation :=
    match d.funcs data.Domain with
    | some dMap =>
      match dMap data.Action with
      | some funcs => runFuncs ctx data funcs
      | none => ([], [])
    | none => ([], [])
  ⟨d, started :: body.1 ++ [completed], body.2, none⟩

/-- The handler list the registry holds for a key, read the way `Call` reads
it: a missing domain or action key behaves as the empty list. -/
def Delegate.lookupFuncs (d : Delegate) (dm ac : String) : List Func :=
  match d.funcs dm with
  | some aMap => (aMap ac).getD []
  | none => []

/-- Fold of `Register` over a list of handlers, all under one key, first
handler registered first. -/
def registerAll (d : Delegate) (dm ac : String) : List Func → Delegate
  | [] => d
  | fn :: rest => registerAll (d.Register dm ac fn) dm ac rest

/-! ### The textual representation of an event (`Data.String`)

`Data.String` in delegate.go is
`fmt.Sprintf("Event{Domain:%#v, Action:%#v, RawParams:%#v}", Domain, Action,
string(RawParams))`. The `%#v` verb renders a string as a Go-syntax quoted
literal (the `strconv.Quote` escaping). The model below is byte-exact for
strings of ASCII characters (code points below 0x80), which is where every
claim about this rendering is settled; code points at 0x80 and above are
rendered with `\u` escapes, where Go would consult Unicode printability
tables. -/

/-- Lowercase hexadecimal digit, as used by the Go quote escaping. -/
def hexDigit (n : Nat) : Char :=
  if n < 10 then Char.ofNat (48 + n) else Char.ofNat (87 + n)

/-- Escape one character the way the Go `%#v` verb (`strconv.Quote`) does inside the
quotes: quote and backslash get a backslash; printable ASCII passes through;
the named control escapes `\a \b \f \n \r \t \v`; other control characters
become `\xHH`; characters at 0x80 and above become `\uHHHH` (see the section
comment on ASCII-exactness). -/
def escapeChar (c : Char) : List Char :=
  let n := c.toNat
  if c = '"' then ['\\', '"']
  else if c = '\\' then ['\\', '\\']
  else if 0x20 ≤ n ∧ n ≤ 0x7E then [c]
  else if n = 7 then ['\\', 'a']
  else if n = 8 then ['\\', 'b']
  else if n = 12 then ['\\', 'f']
  else if n = 10 then ['\\', 'n']
  else if n = 13 then ['\\', 'r']
  else if n = 9 then ['\\', 't']
  else if n = 11 then ['\\', 'v']
  else if n < 0x20 ∨ n = 0x7F then
    ['\\', 'x', hexDigit (n / 16 % 16), hexDigit (n % 16)]
  else
    ['\\', 'u', hexDigit (n / 4096 % 16), hexDigit (n / 256 % 16),
     hexDigit (n / 16 % 16), hexDigit (n % 16)]

/-- Go-syntax quoted form of a string (`%#v` on a string value): a double
quote, every character escaped per `escapeChar`, a closing double quote. -/
def goQuote (s : String) : String :=
  ⟨'"' :: s.data.flatMap escapeChar ++ ['"']⟩

/-- The Go `string(b)` conversion of a byte slice, modelled character-per-byte
(byte-exact for ASCII bytes). -/
def stringOfBytes (b : List Nat) : String :=
  ⟨b.map Char.ofNat⟩

/-- Textual representation (`Data.String` in delegate.go): the `fmt.Sprintf` call with the three
`%#v` arguments `Domain`, `Action`, `string(RawParams)`. -/
def dataString (d : Data) : String :=
  "Event\x7bDomain:" ++ goQuote d.Domain ++ ", Action:" ++ goQuote d.Action ++
    ", RawParams:" ++ goQuote (stringOfBytes d.RawParams) ++ "\x7d"

/-! ### Helper lemmas -/

/-- The loop invokes exactly the listed handlers, in list order, each with
the given token and event. -/
theorem runFuncs_invoked (ctx : Ctx) (data : Data) (fs : List Func) :
    (runFuncs ctx data fs).2 = fs.map (fun f => ⟨f, ctx, data⟩) := by
  induction fs with
  | nil => rfl
  | cons fn rest ih =>
    simp only [runFuncs, List.map_cons]
    exact congrArg _ ih

/-- Dispatch invokes exactly the handlers registered under the key of the event, in
registration order, each with the given token and event. -/
theorem Call_invoked (d : Delegate) (ctx : Ctx) (data : Data) :
    (d.Call ctx data).invoked
      = (d.lookupFuncs data.Domain data.Action).map (fun f => ⟨f, ctx, data⟩) := by
  unfold Delegate.Call Delegate.lookupFuncs
  cases h1 : d.funcs data.Domain with
  | none => rfl
  | some aMap =>
    cases h2 : aMap data.Action with
    | none => simp [h2]
    | some fs => simpa [h2] using runFuncs_invoked ctx data fs

/-- Looking up the key just registered yields the old list with the new
handler appended. -/
theorem Register_lookup_same (d : Delegate) (dm ac : String) (fn : Func) :
    (d.Register dm ac fn).lookupFuncs dm ac = d.lookupFuncs dm ac ++ [fn] := by
  unfold Delegate.Register Delegate.lookupFuncs
  cases h1 : d.funcs dm with
  | none => simp
  | some aMap => simp

/-- Looking up any other key is unchanged by `Register`. -/
theorem Register_lookup_other (d : Delegate) (dm ac dm2 ac2 : String) (fn : Func)
    (h : ¬(dm2 = dm ∧ ac2 = ac)) :
    (d.Register dm ac fn).lookupFuncs dm2 ac2 = d.lookupFuncs dm2 ac2 := by
  unfold Delegate.Register Delegate.lookupFuncs
  by_cases hd : dm2 = dm
  · subst hd
    have hac : ¬ ac2 = ac := fun hc => h ⟨rfl, hc⟩
    cases h1 : d.funcs dm2 with
    | none => simp [hac]
    | some aMap => simp [hac]
  · simp [hd]

/-- The log trace of one dispatch is always the started entry, then the loop
trace over the handler list of the key (empty on a lookup miss), then the
completed entry. -/
theorem Call_logs (d : Delegate) (ctx : Ctx) (data : Data) :
    (d.Call ctx data).logs
      = (⟨.info, ctx, "delegate call",
            [("status", .str "started"), ("domain", .str data.Domain),
             ("action", .str data.Action), ("params", .bytes data.RawParams)]⟩ : LogEntry)
          :: (runFuncs ctx data (d.lookupFuncs data.Domain data.Action)).1
          ++ [⟨.info, ctx, "delegate call", [("status", .str "completed")]⟩] := by
  unfold Delegate.Call Delegate.lookupFuncs
  cases h1 : d.funcs data.Domain with
  | none => rfl
  | some aMap =>
    cases h2 : aMap data.Action with
    | none => simp [h2, runFuncs]
    | some fs => simp [h2]

/-- If the loop list contains a handler failing with `e` at `(ctx, data)`,
the error-severity entry for `e` occurs in the loop trace. -/
theorem runFuncs_error_logged (ctx : Ctx) (data : Data) (fs : List Func)
    (i : Nat) (hi : i < fs.length) (e : String)
    (he : (fs.get ⟨i, hi⟩).run ctx data = some e) :
    (⟨.error, ctx, "delegate call", [("msg", .err e)]⟩ : LogEntry)
      ∈ (runFuncs ctx data fs).1 := by
  induction fs generalizing i with
  | nil => exact absurd hi (by simp)
  | cons fn rest ih =>
    cases i with
    | zero =>
      simp only [List.get] at he
      simp [runFuncs, he]
    | succ j =>
      have hj : j < rest.length := Nat.lt_of_succ_lt_succ hi
      have hm := ih j hj (by simpa using he)
      simp only [runFuncs]
      exact List.mem_append_right _ hm

/-- Accumulation over a list of registrations under one key: the final list
for the key is the initial list followed by the new handlers in order. -/
theorem registerAll_lookup_same (dm ac : String) (fns : List Func) (d : Delegate) :
    (registerAll d dm ac fns).lookupFuncs dm ac = d.lookupFuncs dm ac ++ fns := by
  induction fns generalizing d with
  | nil => simp [registerAll]
  | cons fn rest ih =>
    calc (registerAll (d.Register dm ac fn) dm ac rest).lookupFuncs dm ac
        = (d.Register dm ac fn).lookupFuncs dm ac ++ rest := ih _
      _ = d.lookupFuncs dm ac ++ fn :: rest := by
          rw [Register_lookup_same]; simp

/-- If every character of a list is escape-free, escaping is the identity on
the list. -/
theorem flatMap_escapeChar_id (l : List Char) (h : ∀ c ∈ l, escapeChar c = [c]) :
    l.flatMap escapeChar = l := by
  induction l with
  | nil => rfl
  | cons c rest ih =>
    have hc : escapeChar c = [c] := h c (by simp)
    have hrest := ih (fun x hx => h x (by simp [hx]))
    simp [List.flatMap_cons, hc, hrest]

/-- The character data of a quoted string is the quote, the escaped
characters, and the closing quote. -/
theorem goQuote_data (s : String) :
    (goQuote s).data = '"' :: s.data.flatMap escapeChar ++ ['"'] := rfl

/-- The character data of the rendering is the four literal fragments
interleaved with the three quoted values. -/
theorem dataString_data (d : Data) :
    (dataString d).data
      = "Event\x7bDomain:".data ++ (goQuote d.Domain).data
        ++ ", Action:".data ++ (goQuote d.Action).data
        ++ ", RawParams:".data ++ (goQuote (stringOfBytes d.RawParams)).data
        ++ "\x7d".data := by
  unfold dataString
  simp [String.data_append]

/-! ### Concrete fixtures for witnesses -/

/-- A handler that always succeeds. -/
def fA : Func := ⟨fun _ _ => none⟩

/-- A handler that always fails with message "boom". -/
def fB : Func := ⟨fun _ _ => some "boom"⟩

/-- A registry with `fA` then `fB` registered under ("user", "created"). -/
def dUser : Delegate := (New.Register "user" "created" fA).Register "user" "created" fB

/-- The event dispatched in the concrete scenarios for ("user", "created"). -/
def evUser : Data := ⟨"user", "created", []⟩

/-- The event for the unregistered key ("order", "shipped"). -/
def evOrder : Data := ⟨"order", "shipped", []⟩

/-- The registered handler lists of the concrete registry compute as
expected. -/
theorem dUser_lookup : dUser.lookupFuncs "user" "created" = [fA, fB] := by
  have h1 := Register_lookup_same New "user" "created" fA
  have h2 := Register_lookup_same (New.Register "user" "created" fA) "user" "created" fB
  have h0 : New.lookupFuncs "user" "created" = [] := rfl
  simp [dUser, h2, h1, h0]

/-- The concrete registry holds nothing under ("order", "shipped"). -/
theorem dUser_lookup_order : dUser.lookupFuncs evOrder.Domain evOrder.Action = [] := by
  have h2 := Register_lookup_other (New.Register "user" "created" fA)
    "user" "created" "order" "shipped" fB (by simp)
  have h1 := Register_lookup_other New "user" "created" "order" "shipped" fA (by simp)
  simp [dUser, h2, h1]
  rfl

/-! ### The claims -/

/-- C1: for every registry state, every cancellation token, and every event
(whatever the handlers return), dispatch (`Call`) returns the nil error; no
handler error is ever propagated to the caller. -/
theorem Call_always_returns_nil (d : Delegate) (ctx : Ctx) (data : Data) :
    (d.Call ctx data).ret = none := rfl

/-- C2: when the handlers registered under the key of the event are
`hs = [H1, ..., Hn]` in registration order, one dispatch invokes exactly
those handlers, in that order, with no reordering, deduplication, or
skipping — the invocation trace is `hs` itself, each entry carrying the
given token and event. -/
theorem Call_invokes_in_registration_order (d : Delegate) (ctx : Ctx)
    (data : Data) (hs : List Func)
    (h : d.lookupFuncs data.Domain data.Action = hs) :
    (d.Call ctx data).invoked = hs.map (fun f => ⟨f, ctx, data⟩) := by
  rw [Call_invoked, h]

/-- Witness for C2: in the registry holding `fA` then `fB` under
("user", "created"), one dispatch invokes exactly `fA` then `fB`. -/
theorem Call_invokes_in_registration_order_witness :
    dUser.lookupFuncs evUser.Domain evUser.Action = [fA, fB]
    ∧ (dUser.Call 0 evUser).invoked = [fA, fB].map (fun f => ⟨f, 0, evUser⟩) :=
  ⟨dUser_lookup,
   Call_invokes_in_registration_order dUser 0 evUser [fA, fB] dUser_lookup⟩

/-- C3: dispatching an event whose domain key is absent, or whose action key
is absent under its domain, invokes no handler, leaves the registry
unchanged, and returns the nil error — a lookup miss is a defined no-op, not
an error. -/
theorem Call_unregistered_key_noop (d : Delegate) (ctx : Ctx) (data : Data)
    (h : d.funcs data.Domain = none
         ∨ ∃ aMap, d.funcs data.Domain = some aMap ∧ aMap data.Action = none) :
    (d.Call ctx data).invoked = []
    ∧ (d.Call ctx data).delegate = d
    ∧ (d.Call ctx data).ret = none := by
  refine ⟨?_, rfl, rfl⟩
  rw [Call_invoked]
  rcases h with h | ⟨aMap, h1, h2⟩
  · simp [Delegate.lookupFuncs, h]
  · simp [Delegate.lookupFuncs, h1, h2]

/-- Witness for C3: the key ("order", "shipped") has no registrations in the
concrete registry, and dispatching it invokes nothing. -/
theorem Call_unregistered_key_noop_witness :
    dUser.funcs evOrder.Domain = none
    ∧ (dUser.Call 0 evOrder).invoked = [] :=
  ⟨rfl, (Call_unregistered_key_noop dUser 0 evOrder (Or.inl rfl)).1⟩

/-- C4: if the handler at position `i` of the list registered under the key
of the event fails with error `e`, that error is logged at error severity,
and every handler after position `i` is still invoked. -/
theorem Call_continues_after_handler_error (d : Delegate) (ctx : Ctx)
    (data : Data) (hs : List Func)
    (h : d.lookupFuncs data.Domain data.Action = hs)
    (i : Nat) (hi : i < hs.length) (e : String)
    (he : (hs.get ⟨i, hi⟩).run ctx data = some e) :
    (⟨.error, ctx, "delegate call", [("msg", .err e)]⟩ : LogEntry)
      ∈ (d.Call ctx data).logs
    ∧ ∀ j, ∀ hj : j < hs.length, i < j →
        (⟨hs.get ⟨j, hj⟩, ctx, data⟩ : Invocation) ∈ (d.Call ctx data).invoked := by
  constructor
  · rw [Call_logs, h]
    exact List.mem_cons_of_mem _
      (List.mem_append_left _ (runFuncs_error_logged ctx data hs i hi e he))
  · intro j hj hij
    rw [Call_invoked, h]
    exact List.mem_map.2 ⟨hs.get ⟨j, hj⟩, List.get_mem hs j hj, rfl⟩

/-- Witness for C4: `fB` (position 1 under ("user", "created")) fails with
"boom", and the error-severity entry for "boom" occurs in the dispatch log
trace. -/
theorem Call_continues_after_handler_error_witness :
    dUser.lookupFuncs evUser.Domain evUser.Action = [fA, fB]
    ∧ fB.run 0 evUser = some "boom"
    ∧ (⟨.error, 0, "delegate call", [("msg", .err "boom")]⟩ : LogEntry)
        ∈ (dUser.Call 0 evUser).logs :=
  ⟨dUser_lookup, rfl,
   (Call_continues_after_handler_error dUser 0 evUser [fA, fB] dUser_lookup
     1 (by decide) "boom" rfl).1⟩

/-- C5: registrations accumulate: folding `Register` over `fns` under one
key appends `fns` to the list for that key (never replacing it), and when
the key starts with no registrations, one subsequent dispatch to it performs
exactly `fns.length` handler invocations. -/
theorem Register_accumulates_handlers (d : Delegate) (dm ac : String)
    (fns : List Func) (ctx : Ctx) (data : Data)
    (hdm : data.Domain = dm) (hac : data.Action = ac) :
    (registerAll d dm ac fns).lookupFuncs dm ac = d.lookupFuncs dm ac ++ fns
    ∧ (d.lookupFuncs dm ac = [] →
        ((registerAll d dm ac fns).Call ctx data).invoked.length = fns.length) := by
  refine ⟨registerAll_lookup_same dm ac fns d, fun h0 => ?_⟩
  rw [Call_invoked, hdm, hac, registerAll_lookup_same, h0]
  simp

/-- Witness for C5: two registrations under ("user", "created") on the empty
registry, then one dispatch, give exactly two invocations. -/
theorem Register_accumulates_handlers_witness :
    New.lookupFuncs "user" "created" = []
    ∧ ((registerAll New "user" "created" [fA, fB]).Call 0 evUser).invoked.length = 2 :=
  ⟨rfl,
   (Register_accumulates_handlers New "user" "created" [fA, fB] 0 evUser
     rfl rfl).2 rfl⟩

/-- C6: registrations under different keys never interfere: a handler
registered under key B but not under the (distinct) key of the dispatched
event is never invoked by that dispatch. -/
theorem Call_no_cross_key_interference (d : Delegate) (ctx : Ctx)
    (data : Data) (dmB acB : String) (f : Func)
    (hkeys : ¬(data.Domain = dmB ∧ data.Action = acB))
    (hB : f ∈ d.lookupFuncs dmB acB)
    (hA : f ∉ d.lookupFuncs data.Domain data.Action) :
    f ∉ (d.Call ctx data).invoked.map Invocation.fn := by
  rw [Call_invoked]
  intro hmem
  simp only [List.map_map, Function.comp] at hmem
  simp at hmem
  exact hA hmem

/-- Witness for C6: `fA` is registered under ("user", "created") only, and
dispatching ("order", "shipped") never invokes it. -/
theorem Call_no_cross_key_interference_witness :
    fA ∈ dUser.lookupFuncs "user" "created"
    ∧ fA ∉ (dUser.Call 0 evOrder).invoked.map Invocation.fn :=
  ⟨by rw [dUser_lookup]; simp,
   Call_no_cross_key_interference dUser 0 evOrder "user" "created" fA
     (by decide) (by rw [dUser_lookup]; simp)
     (by rw [dUser_lookup_order]; simp)⟩

/-- C7: every dispatch emits, first, a start entry carrying the domain,
action, and payload of the event, and, last, a completion entry — whatever
the handler loop did (failures included) and even when no handler was
registered. -/
theorem Call_emits_start_and_completion_logs (d : Delegate) (ctx : Ctx)
    (data : Data) :
    (d.Call ctx data).logs.head?
      = some ⟨.info, ctx, "delegate call",
          [("status", .str "started"), ("domain", .str data.Domain),
           ("action", .str data.Action), ("params", .bytes data.RawParams)]⟩
    ∧ (d.Call ctx data).logs.getLast?
      = some ⟨.info, ctx, "delegate call", [("status", .str "completed")]⟩ := by
  rw [Call_logs]
  exact ⟨rfl, List.getLast?_concat _⟩

/-- C9: the registry never inspects the cancellation token: for any two
tokens, the same registry state and event give the same handler sequence,
the same returned error, and the same post-state; each invocation merely
passes the supplied token (and the event) through to the handler. -/
theorem Call_independent_of_token (d : Delegate) (ctx1 ctx2 : Ctx)
    (data : Data) :
    (d.Call ctx1 data).invoked.map Invocation.fn
      = (d.Call ctx2 data).invoked.map Invocation.fn
    ∧ (d.Call ctx1 data).ret = (d.Call ctx2 data).ret
    ∧ (d.Call ctx1 data).delegate = (d.Call ctx2 data).delegate
    ∧ ∀ inv ∈ (d.Call ctx1 data).invoked, inv.ctx = ctx1 ∧ inv.data = data := by
  refine ⟨?_, rfl, rfl, ?_⟩
  · rw [Call_invoked, Call_invoked]
    simp [List.map_map, Function.comp]
  · intro inv hinv
    rw [Call_invoked] at hinv
    obtain ⟨f, _, rfl⟩ := List.mem_map.1 hinv
    exact ⟨rfl, rfl⟩

/-- C10: registration only grows the list at its own key — every other key
reads the same afterwards — and dispatch never modifies the mapping at all. -/
theorem Register_frame_Call_readonly (d : Delegate) (dm ac : String)
    (fn : Func) (ctx : Ctx) (data : Data) :
    (d.Register dm ac fn).lookupFuncs dm ac = d.lookupFuncs dm ac ++ [fn]
    ∧ (∀ dm2 ac2, ¬(dm2 = dm ∧ ac2 = ac) →
        (d.Register dm ac fn).lookupFuncs dm2 ac2 = d.lookupFuncs dm2 ac2)
    ∧ (d.Call ctx data).delegate = d :=
  ⟨Register_lookup_same d dm ac fn,
   fun dm2 ac2 h => Register_lookup_other d dm ac dm2 ac2 fn h,
   rfl⟩

/-- Witness for C10: registering under ("user", "created") leaves
("order", "shipped") unchanged, and one dispatch leaves the registry as it
was. -/
theorem Register_frame_Call_readonly_witness :
    (New.Register "user" "created" fA).lookupFuncs "order" "shipped"
      = New.lookupFuncs "order" "shipped"
    ∧ (New.Call 0 evUser).delegate = New :=
  ⟨(Register_frame_Call_readonly New "user" "created" fA 0 evUser).2.1
      "order" "shipped" (by decide),
   (Register_frame_Call_readonly New "user" "created" fA 0 evUser).2.2⟩

/-- Event refuting literal containment in the rendering: its domain contains
a double quote and its payload bytes are control characters. -/
def evQuote : Data := ⟨"a\"b", "y", [1, 2, 3]⟩

/-- C8 (as stated) is false: for the event with domain `a"b`, action `y`,
payload bytes `[1, 2, 3]`, the rendering escapes the quote in the domain and
the control bytes of the payload, so neither the literal domain string nor
the string form of the payload bytes occurs in the rendered text. -/
theorem dataString_literal_containment_counterexample :
    ¬(evQuote.Domain.data <:+: (dataString evQuote).data
      ∧ evQuote.Action.data <:+: (dataString evQuote).data
      ∧ (stringOfBytes evQuote.RawParams).data <:+: (dataString evQuote).data) := by
  decide

/-- C8 amended: the rendering of every event is a tagged record containing
the Go-syntax quoted form of the domain, of the action, and of the string
form of the payload bytes; whenever one of those strings needs no escaping
(every character printable ASCII other than quote and backslash), that
literal string itself also occurs in the rendering. -/
theorem dataString_contains_quoted_forms (d : Data) :
    (goQuote d.Domain).data <:+: (dataString d).data
    ∧ (goQuote d.Action).data <:+: (dataString d).data
    ∧ (goQuote (stringOfBytes d.RawParams)).data <:+: (dataString d).data
    ∧ ((∀ c ∈ d.Domain.data, escapeChar c = [c]) →
        d.Domain.data <:+: (dataString d).data)
    ∧ ((∀ c ∈ d.Action.data, escapeChar c = [c]) →
        d.Action.data <:+: (dataString d).data)
    ∧ ((∀ c ∈ (stringOfBytes d.RawParams).data, escapeChar c = [c]) →
        (stringOfBytes d.RawParams).data <:+: (dataString d).data) := by
  have hD : (dataString d).data
      = "Event\x7bDomain:".data ++ (goQuote d.Domain).data
        ++ (", Action:".data ++ (goQuote d.Action).data ++ ", RawParams:".data
            ++ (goQuote (stringOfBytes d.RawParams)).data ++ "\x7d".data) := by
    rw [dataString_data]; simp [List.append_assoc]
  have hA : (dataString d).data
      = ("Event\x7bDomain:".data ++ (goQuote d.Domain).data ++ ", Action:".data)
        ++ (goQuote d.Action).data
        ++ (", RawParams:".data ++ (goQuote (stringOfBytes d.RawParams)).data
            ++ "\x7d".data) := by
    rw [dataString_data]; simp [List.append_assoc]
  have hP : (dataString d).data
      = ("Event\x7bDomain:".data ++ (goQuote d.Domain).data ++ ", Action:".data
          ++ (goQuote d.Action).data ++ ", RawParams:".data)
        ++ (goQuote (stringOfBytes d.RawParams)).data ++ "\x7d".data :=
    dataString_data d
  have hsub : ∀ s : String, (∀ c ∈ s.data, escapeChar c = [c]) →
      s.data <:+: (goQuote s).data := by
    intro s h
    rw [goQuote_data, flatMap_escapeChar_id _ h]
    exact ⟨['"'], ['"'], rfl⟩
  have iD : (goQuote d.Domain).data <:+: (dataString d).data := by
    rw [hD]; exact List.infix_append _ _ _
  have iA : (goQuote d.Action).data <:+: (dataString d).data := by
    rw [hA]; exact List.infix_append _ _ _
  have iP : (goQuote (stringOfBytes d.RawParams)).data <:+: (dataString d).data := by
    rw [hP]; exact List.infix_append _ _ _
  exact ⟨iD, iA, iP,
    fun h => (hsub _ h).trans iD,
    fun h => (hsub _ h).trans iA,
    fun h => (hsub _ h).trans iP⟩

/-- Witness for the amended C8: for the event with domain `x`, action `y`,
payload bytes `49 50 51` (the text `123`), the escape-free literal domain
occurs in the rendering. -/
theorem dataString_contains_quoted_forms_witness :
    escapeChar 'x' = ['x']
    ∧ "x".data <:+: (dataString (Data.mk "x" "y" [49, 50, 51])).data :=
  ⟨by decide,
   (dataString_contains_quoted_forms (Data.mk "x" "y" [49, 50, 51])).2.2.2.1
     (by decide)⟩
